import Mathlib

/-!
Verification of the job execution and process-isolation engine of the
claude-server backend, as a shallow embedding of the Python sources
(`backend/app/services/job_runner.py`, `backend/app/services/isolation_service.py`,
`backend/app/services/claude_service.py`, `backend/app/config.py`).

Definitions are translated from the source; theorems settle the testable
properties stated in the specification.
-/

namespace ClaudeServer

/-! ## String helpers

Python substring containment (`pat in command`) and `str.split("-")[0]` are
modelled over the character lists of Lean strings, with structural recursion
so that everything evaluates by `decide`. -/

/-- Boolean test that the first character list is a prefix of the second. -/
def leadsWith : List Char → List Char → Bool
  | [], _ => true
  | _ :: _, [] => false
  | a :: asx, b :: bs => a == b && leadsWith asx bs

/-- Boolean test that `pat` occurs as a contiguous substring of the second list.
Models the Python expression `pat in s`. -/
def occursIn (pat : List Char) : List Char → Bool
  | [] => pat.isEmpty
  | c :: rest => leadsWith pat (c :: rest) || occursIn pat rest

/-- String-level substring containment: models Python `pat in s`. -/
def strContains (s pat : String) : Bool :=
  occursIn pat.data s.data

/-- Characters of a string before the first dash.  Models
`platform_user_id.split("-")[0]` for the username derivation. -/
def takeUntilDash : List Char → List Char
  | [] => []
  | c :: rest => if c = '-' then [] else c :: takeUntilDash rest

/-- First dash-separated segment of a string. -/
def shortIdOf (s : String) : String :=
  String.mk (takeUntilDash s.data)

/-- Concatenation of a list of strings, in order. -/
def concatStr : List String → String
  | [] => ""
  | s :: rest => s ++ concatStr rest

/-! ## Job data model

From `backend/app/models/job.py`: status enum, type enum, and the fields of
the `Job` record that the engine reads or writes.  Timestamps are abstract
`Nat` instants (only their presence matters to the claims). -/

/-- Job lifecycle states (`JobStatus` in `models/job.py`). -/
inductive JobStatus where
  | queued
  | running
  | success
  | failed
  | cancelled
deriving DecidableEq, Repr, BEq

/-- Job categories (`JobType` in `models/job.py`). -/
inductive JobType where
  | buildApk
  | buildWeb
  | test
  | devServer
  | customCommand
deriving DecidableEq, Repr

/-- Project categories (`ProjectType` value strings used by `_build_command`). -/
inductive ProjectType where
  | flutter
  | node
  | python
  | web
  | other
deriving DecidableEq, Repr

/-- The `.value` string of a project type, as used in error messages. -/
def projectTypeName : ProjectType → String
  | ProjectType.flutter => "flutter"
  | ProjectType.node => "node"
  | ProjectType.python => "python"
  | ProjectType.web => "web"
  | ProjectType.other => "other"

/-- The engine-relevant fields of a `Job` row.  `metadataPort` models
`(job.metadata_json or {}).get("port", 8080)`'s source value. -/
structure Job where
  id : String
  type : JobType
  status : JobStatus
  command : Option String
  logPath : Option String
  startedAt : Option Nat
  finishedAt : Option Nat
  pid : Option Nat
  metadataPort : Option Nat
deriving DecidableEq, Repr

/-- Observable engine state for one job: the persisted `Job` row, the content
of its log file (`none` = file does not exist), whether `JobRunner._processes`
holds a live handle for it, and whether a subprocess was ever created. -/
structure EngineState where
  job : Job
  logContent : Option String
  inProcessMap : Bool
  spawned : Bool
deriving DecidableEq, Repr

/-- External facts fixed for one `_run_job` execution: whether the project
row exists and its type, whether opening the log and spawning succeed, the
OS pid, the exit code, and the bytes the process writes to its redirected
stdout/stderr. -/
structure RunWorld where
  projectExists : Bool
  projectType : ProjectType
  scriptsPath : String
  spawnOk : Bool
  osPid : Nat
  exitCode : Int
  processOutput : String
deriving DecidableEq, Repr

/-! ## Command construction (`JobRunner._build_command`, `_sanitize_command`) -/

/-- The denylist of `JobRunner._sanitize_command`, in source order. -/
def dangerousPatterns : List String :=
  [";", "&&", "||", "|", ">", "<", "`", "$(",
   "rm -rf", "sudo", "chmod", "chown"]

/-- `JobRunner._sanitize_command`: raise `ValueError` on the first denylisted
pattern occurring in the command, else return the command unchanged. -/
def sanitizeCommand (command : String) : Except String String :=
  match dangerousPatterns.find? (fun pat => strContains command pat) with
  | some pat => Except.error ("Dangerous pattern in command: " ++ pat)
  | none => Except.ok command

/-- `JobRunner._build_command`: shell command and extra environment for a job,
or the `ValueError` message.  Follows the source's dispatch on job type and
project type. -/
def buildCommand (scriptsPath : String) (job : Job) (ptype : ProjectType) :
    Except String (String × List (String × String)) :=
  match job.type with
  | JobType.buildApk =>
      Except.ok ("bash " ++ scriptsPath ++ "/build_flutter_apk.sh", [])
  | JobType.buildWeb =>
      Except.ok ("bash " ++ scriptsPath ++ "/build_flutter_web.sh", [])
  | JobType.test =>
      match ptype with
      | ProjectType.flutter => Except.ok ("flutter test", [])
      | ProjectType.node => Except.ok ("npm test", [])
      | ProjectType.python => Except.ok ("pytest", [])
      | _ => Except.ok ("echo \x27No test command configured\x27", [])
  | JobType.devServer =>
      let port := job.metadataPort.getD 8080
      match ptype with
      | ProjectType.flutter =>
          Except.ok ("flutter run -d web-server --web-port=" ++ toString port,
            [("PORT", toString port)])
      | ProjectType.node =>
          Except.ok ("PORT=" ++ toString port ++ " npm start",
            [("PORT", toString port)])
      | _ => Except.error ("Dev server not supported for " ++ projectTypeName ptype)
  | JobType.customCommand =>
      match job.command with
      | none => Except.error "Custom command not specified"
      | some c =>
          if c = "" then Except.error "Custom command not specified"
          else
            match sanitizeCommand c with
            | Except.error e => Except.error e
            | Except.ok cmd => Except.ok (cmd, [])

/-! ## Job execution (`JobRunner._run_job`, `_fail_job`, `cancel_job`)

`runJob` returns the sequence of observable states after each database
commit of `_run_job`, in order.  Timestamps are abstract instants. -/

/-- The log file path assigned by `_run_job`
(`settings.job_logs_path / f"{job_id}.log"`). -/
def jobLogPath (jobId : String) : String :=
  "data/logs/jobs/" ++ jobId ++ ".log"

/-- `JobRunner._fail_job`: set status FAILED, record `finished_at`, and if a
log path is set, append the error to the log file (opened in append mode,
creating it if missing).  The `pid` field is not touched. -/
def failJob (clock : Nat) (error : String) (s : EngineState) : EngineState :=
  { s with
    job := { s.job with status := JobStatus.failed, finishedAt := some clock }
    logContent :=
      match s.job.logPath with
      | some _ => some ((s.logContent.getD "") ++ "\n\nERROR: " ++ error ++ "\n")
      | none => s.logContent }

/-- The job row as committed by `_run_job` right after the transition to
RUNNING (status, `started_at`, `log_path`; `pid` still untouched). -/
def runningJobOf (s0 : EngineState) : Job :=
  { s0.job with
    status := JobStatus.running
    startedAt := some 1
    logPath := some (jobLogPath s0.job.id) }

/-- `JobRunner._run_job`: the sequence of observable states after each commit.
Branches: missing project (fail while still QUEUED), command-build
`ValueError` (fail after the RUNNING commit, no spawn), spawn failure
(fail, no pid), and the normal path (RUNNING commit, pid commit after the
spawn — note the log file is opened with mode "w", truncating it — and the
terminal commit clearing `pid` after the exit code is known). -/
def runJob (w : RunWorld) (s0 : EngineState) : List EngineState :=
  if w.projectExists = false then
    [failJob 1 "Project not found" s0]
  else
    let s1 : EngineState := { s0 with job := runningJobOf s0 }
    match buildCommand w.scriptsPath s1.job w.projectType with
    | Except.error e => [s1, failJob 2 e s1]
    | Except.ok _ =>
        if w.spawnOk = false then
          [s1, failJob 2 "spawn failed" s1]
        else
          let sOpen : EngineState := { s1 with logContent := some "" }
          let s2 : EngineState :=
            { sOpen with
              job := { sOpen.job with pid := some w.osPid }
              inProcessMap := true
              spawned := true }
          let sRun : EngineState :=
            { s2 with logContent := some ((s2.logContent.getD "") ++ w.processOutput) }
          let s3 : EngineState :=
            { sRun with
              inProcessMap := false
              job := { sRun.job with
                status := if w.exitCode = 0 then JobStatus.success else JobStatus.failed
                finishedAt := some 3
                pid := none } }
          [s1, s2, s3]

/-- Last observable state of a `_run_job` execution. -/
def runJobFinal (w : RunWorld) (s0 : EngineState) : EngineState :=
  (runJob w s0).getLastD s0

/-- Signals `cancel_job` may send to the live process. -/
inductive Sig where
  | term
  | kill
deriving DecidableEq, Repr

/-- Result of `JobRunner.cancel_job`: return value, signals sent, and the
observable state afterwards. -/
structure CancelResult where
  ok : Bool
  signals : List Sig
  state : EngineState
deriving DecidableEq, Repr

/-- `JobRunner.cancel_job`: with a live handle in `_processes`, terminate,
wait the grace period, kill if still alive, and return `True` without
touching the `Job` row.  Otherwise mark a QUEUED or RUNNING job CANCELLED in
the store; a terminal job is a no-op returning `False`. -/
def cancelJob (aliveAfterGrace : Bool) (clock : Nat) (s : EngineState) : CancelResult :=
  if s.inProcessMap then
    { ok := true
      signals := if aliveAfterGrace then [Sig.term, Sig.kill] else [Sig.term]
      state := s }
  else if s.job.status = JobStatus.queued ∨ s.job.status = JobStatus.running then
    { ok := true
      signals := []
      state := { s with job := { s.job with status := JobStatus.cancelled, finishedAt := some clock } } }
  else
    { ok := false, signals := [], state := s }

/-! ## Status-transition relations -/

/-- The transition relation asserted by the specification: only
QUEUED→RUNNING and RUNNING→terminal. -/
def claimEdge : JobStatus → JobStatus → Bool
  | JobStatus.queued, JobStatus.running => true
  | JobStatus.running, JobStatus.success => true
  | JobStatus.running, JobStatus.failed => true
  | JobStatus.running, JobStatus.cancelled => true
  | _, _ => false

/-- The transition relation the code actually realizes: the specification's
edges plus QUEUED→FAILED (missing project) and QUEUED→CANCELLED (cancel of a
still-queued job). -/
def codeEdge : JobStatus → JobStatus → Bool
  | JobStatus.queued, JobStatus.running => true
  | JobStatus.queued, JobStatus.failed => true
  | JobStatus.queued, JobStatus.cancelled => true
  | JobStatus.running, JobStatus.success => true
  | JobStatus.running, JobStatus.failed => true
  | JobStatus.running, JobStatus.cancelled => true
  | _, _ => false

/-- One observable step either keeps the status or takes a code edge. -/
def stepOk (a b : JobStatus) : Prop :=
  a = b ∨ codeEdge a b = true

instance : DecidableRel stepOk := fun a b =>
  decidable_of_iff (a = b ∨ codeEdge a b = true) Iff.rfl

/-- Adjacent-pair check of a status trace against an edge relation. -/
def edgesOk (r : JobStatus → JobStatus → Bool) : List JobStatus → Bool
  | [] => true
  | [_] => true
  | a :: b :: rest => r a b && edgesOk r (b :: rest)

/-- The pid invariant the code maintains: a non-null `pid` is only ever
observed with status RUNNING and a live handle in the in-memory map. -/
def pidInv (s : EngineState) : Prop :=
  s.job.pid ≠ none → (s.job.status = JobStatus.running ∧ s.inProcessMap = true)

/-! ## Sandbox command builders

`ClaudeService._build_sandboxed_command` (module flags `FIREJAIL_AVAILABLE`,
`BWRAP_AVAILABLE`, and `settings.require_sandbox`) and
`IsolationService.build_isolated_command` (module flags `USERADD_AVAILABLE`,
`USERDEL_AVAILABLE`, `SETPRIV_AVAILABLE`, `FIREJAIL_AVAILABLE`,
`SUDO_AVAILABLE`).  Tool availability is probed once at import time, so it
is a parameter of the embedding. -/

/-- Availability flags and configuration read by
`ClaudeService._build_sandboxed_command`. -/
structure SandboxEnv where
  firejail : Bool
  bwrap : Bool
  requireSandbox : Bool
deriving DecidableEq, Repr

/-- Availability flags read by `IsolationService` (module-level
`shutil.which` probes). -/
structure IsoEnv where
  useradd : Bool
  userdel : Bool
  setpriv : Bool
  firejail : Bool
  sudoTool : Bool
deriving DecidableEq, Repr

/-- The `RuntimeError` message of the fail-closed branch of
`ClaudeService._build_sandboxed_command`. -/
def sandboxRequiredMsg : String :=
  "SECURITY ERROR: Sandboxing required but no sandbox tool available. " ++
  "Install firejail: apt install firejail, or bubblewrap: apt install bubblewrap. " ++
  "Set REQUIRE_SANDBOX=false to disable (NOT RECOMMENDED)."

/-- `ClaudeService._build_sandboxed_command`: firejail wrap, else bubblewrap
wrap, else raise if `require_sandbox`, else return the command unwrapped. -/
def buildSandboxedCommand (env : SandboxEnv) (cmd : List String)
    (allowedPaths : List String) (readonlyPaths : List String) :
    Except String (List String) :=
  if env.firejail then
    Except.ok
      (["firejail", "--quiet", "--noprofile", "--private-dev", "--private-tmp",
        "--noroot", "--nosound", "--no3d", "--nodvd", "--notv", "--nou2f",
        "--novideo"]
       ++ (allowedPaths.map (fun p => ["--whitelist", p])).flatten
       ++ (readonlyPaths.map (fun p => ["--read-only", p])).flatten
       ++ ["--private"] ++ cmd)
  else if env.bwrap then
    Except.ok
      (["bwrap", "--unshare-all", "--die-with-parent", "--dev", "/dev",
        "--proc", "/proc", "--tmpfs", "/tmp"]
       ++ (allowedPaths.map (fun p => ["--bind", p, p])).flatten
       ++ (readonlyPaths.map (fun p => ["--ro-bind", p, p])).flatten
       ++ ["--ro-bind", "/usr", "/usr", "--ro-bind", "/lib", "/lib",
           "--ro-bind", "/lib64", "/lib64", "--ro-bind", "/bin", "/bin",
           "--ro-bind", "/etc/resolv.conf", "/etc/resolv.conf",
           "--ro-bind", "/etc/ssl", "/etc/ssl",
           "--ro-bind", "/etc/ca-certificates", "/etc/ca-certificates"]
       ++ cmd)
  else if env.requireSandbox then
    Except.error sandboxRequiredMsg
  else
    Except.ok cmd

/-- `IsolationService.build_isolated_command`: firejail with forced uid/gid,
else `sudo setpriv` privilege drop, else the command unwrapped.  This
builder never raises and never consults `settings.require_sandbox`. -/
def buildIsolatedCommand (env : IsoEnv) (cmd : List String) (uid gid : Nat)
    (allowedPaths : List String) (readonlyPaths : List String) : List String :=
  if env.firejail then
    ["firejail", "--quiet", "--noprofile",
     "--force-uid=" ++ toString uid, "--force-gid=" ++ toString gid,
     "--private-dev", "--private-tmp", "--noroot", "--nosound", "--no3d",
     "--nodvd", "--notv", "--nou2f", "--novideo"]
    ++ (allowedPaths.map (fun p => ["--whitelist", p])).flatten
    ++ (readonlyPaths.map (fun p => ["--read-only", p])).flatten
    ++ ["--private"] ++ cmd
  else if env.setpriv && env.sudoTool then
    ["sudo", "setpriv", "--reuid=" ++ toString uid, "--regid=" ++ toString gid,
     "--init-groups", "--"] ++ cmd
  else
    cmd

/-! ## Identity provisioning (`IsolationService.provision_user`)

The host is modelled by the uids occupied in `/etc/passwd` within the
reserved range and the existing account and group names; the tenant's stored
identity by the three nullable columns of the `User` row.  The OS
account-management commands are modelled as succeeding (their failure raises
and is outside the deterministic model). -/

/-- The unix fields of the platform `User` row. -/
structure IdentityRec where
  unixUsername : Option String
  unixUid : Option Nat
  unixGid : Option Nat
deriving DecidableEq, Repr

/-- Host-level account state. -/
structure HostState where
  passwdUids : List Nat
  accounts : List String
  groups : List String
deriving DecidableEq, Repr

/-- Result of a successful `provision_user`: the returned triple and the
updated user row and host state. -/
structure ProvisionOut where
  triple : String × Nat × Nat
  user : IdentityRec
  host : HostState
deriving DecidableEq, Repr

/-- `IsolationService._find_available_uid` inner loop:
`for uid in range(10000, 60000)` returning the first uid not in use. -/
def findAvailableUidAux (used : List Nat) : Nat → Nat → Option Nat
  | _, 0 => none
  | uid, fuel + 1 => if uid ∈ used then findAvailableUidAux used (uid + 1) fuel else some uid

/-- `IsolationService._find_available_uid` over the reserved range
10000 ≤ uid < 60000. -/
def findAvailableUid (used : List Nat) : Option Nat :=
  findAvailableUidAux used 10000 50000

/-- Python `user.unix_gid or user.unix_uid`: the gid if present and truthy,
else the uid. -/
def gidOrUid : Option Nat → Nat → Nat
  | some g, u => if g = 0 then u else g
  | none, u => u

/-- Deterministic username derived from the platform user id
(`claude_` prefix plus the first UUID segment). -/
def usernameFor (platformUserId : String) : String :=
  "claude_" ++ shortIdOf platformUserId

/-- The fresh-allocation path of `provision_user`: derive the username, scan
for the lowest free uid, create group and account if absent (a fresh account
occupies its uid in `/etc/passwd`), and persist the mapping. -/
def freshProvision (platformUserId : String) (host : HostState) :
    Except String ProvisionOut :=
  let uname := usernameFor platformUserId
  match findAvailableUid host.passwdUids with
  | none => Except.error "No available UIDs in range"
  | some uid =>
      let host1 : HostState :=
        { host with groups := if uname ∈ host.groups then host.groups else uname :: host.groups }
      let host2 : HostState :=
        { host1 with
          accounts := if uname ∈ host1.accounts then host1.accounts else uname :: host1.accounts
          passwdUids := if uname ∈ host1.accounts then host1.passwdUids else uid :: host1.passwdUids }
      Except.ok
        { triple := (uname, uid, uid)
          user := { unixUsername := some uname, unixUid := some uid, unixGid := some uid }
          host := host2 }

/-- The Python truthiness test `if user.unix_username and user.unix_uid:`
of `provision_user`: a stored identity counts only when the username is a
non-empty string and the uid a non-zero integer. -/
def storedIdentity (user : IdentityRec) : Option (String × Nat) :=
  match user.unixUsername, user.unixUid with
  | some uname, some uid =>
      if uname == "" || uid == 0 then none else some (uname, uid)
  | _, _ => none

/-- `IsolationService.provision_user`: configuration error without
`useradd`+`sudo`; idempotent early return when the stored identity is
present (Python truthiness of the username and uid, gid falling back to the
uid); otherwise the fresh allocation path. -/
def provisionUser (tools : IsoEnv) (platformUserId : String)
    (user : IdentityRec) (host : HostState) : Except String ProvisionOut :=
  if !(tools.useradd && tools.sudoTool) then
    Except.error "Unix user provisioning not available. Install useradd and configure sudo."
  else
    match storedIdentity user with
    | some (uname, uid) =>
        Except.ok { triple := (uname, uid, gidOrUid user.unixGid uid),
                    user := user, host := host }
    | none => freshProvision platformUserId host

/-! ## Agent protocol reader (`ClaudeService.send_message_stream`)

The decoder consumes parsed stream-json lines (malformed lines are skipped
by the source and are modelled by the `unknown` record) and emits the
normalized push-channel events.  The terminal `done` event of the source
carries heuristic extractions computed from the accumulated response; the
model carries the accumulated response itself. -/

/-- A content block of a top-level assistant message. -/
inductive MsgBlock where
  | toolUse (name : String) (input : String)
  | other
deriving DecidableEq, Repr

/-- A parsed stream-json input record, after the source's dictionary
dispatch on `type` and the nested event fields. -/
inductive StreamEvent where
  | blockStart (blockType : String) (toolName : String)
  | textDelta (text : String)
  | inputJsonDelta (partJson : String)
  | blockStop
  | assistantMsg (content : List MsgBlock)
  | resultEvent (resultText : String)
  | unknown
deriving DecidableEq, Repr

/-- A normalized push-channel event emitted by the reader. -/
inductive OutEvent where
  | text (s : String)
  | toolStart (tool : String)
  | toolInput (partJson : String)
  | toolEnd
  | toolCall (tool : String) (input : String)
  | done (finalResponse : String)
  | error (msg : String)
deriving DecidableEq, Repr

/-- Decoder state: the accumulated response and the last-block-was-tool
flag. -/
structure DecState where
  fullResponse : String
  lastBlockWasTool : Bool
deriving DecidableEq, Repr

/-- Handling of one parsed stream-json record, following the source's
branches in order. -/
def processEvent (st : DecState) : StreamEvent → DecState × List OutEvent
  | StreamEvent.blockStart bt tname =>
      if bt = "tool_use" then
        ({ st with lastBlockWasTool := true }, [OutEvent.toolStart tname])
      else if bt = "text" then
        if st.lastBlockWasTool && !(st.fullResponse == "") then
          ({ fullResponse := st.fullResponse ++ "\n\n", lastBlockWasTool := false },
           [OutEvent.text "\n\n"])
        else
          ({ st with lastBlockWasTool := false }, [])
      else (st, [])
  | StreamEvent.textDelta t =>
      if t = "" then (st, [])
      else ({ st with fullResponse := st.fullResponse ++ t }, [OutEvent.text t])
  | StreamEvent.inputJsonDelta pj =>
      if pj = "" then (st, [])
      else (st, [OutEvent.toolInput pj])
  | StreamEvent.blockStop => (st, [OutEvent.toolEnd])
  | StreamEvent.assistantMsg content =>
      (st, content.filterMap (fun b =>
        match b with
        | MsgBlock.toolUse n i => some (OutEvent.toolCall n i)
        | MsgBlock.other => none))
  | StreamEvent.resultEvent r =>
      if !(r == "") && st.fullResponse.length < r.length then
        let newText := r.drop st.fullResponse.length
        ({ st with fullResponse := r },
         if newText == "" then [] else [OutEvent.text newText])
      else (st, [])
  | StreamEvent.unknown => (st, [])

/-- Folding `processEvent` over the records of a chunk, concatenating the
emitted events in order. -/
def processEvents (st : DecState) : List StreamEvent → DecState × List OutEvent
  | [] => (st, [])
  | e :: rest =>
      let p1 := processEvent st e
      let p2 := processEvents p1.1 rest
      (p2.1, p1.2 ++ p2.2)

/-- One iteration of the stdout read loop: a chunk of parsed records, a read
timeout, or end of stream. -/
inductive ReadStep where
  | chunk (events : List StreamEvent)
  | timeout
  | eof
deriving DecidableEq, Repr

/-- The read loop of `send_message_stream`: decode chunks until end of
stream (break, no event) or a timeout (emit the timeout error event and
break). -/
def readLoop (st : DecState) : List ReadStep → DecState × List OutEvent
  | [] => (st, [])
  | ReadStep.eof :: _ => (st, [])
  | ReadStep.timeout :: _ => (st, [OutEvent.error "Response timed out"])
  | ReadStep.chunk evs :: rest =>
      let p1 := processEvents st evs
      let p2 := readLoop p1.1 rest
      (p2.1, p1.2 ++ p2.2)

/-- `ClaudeService.send_message_stream` as a whole: a spawn (or sandbox
configuration) failure is caught by the outer handler and yields a single
error event; otherwise the read loop runs and, after the process is awaited,
the terminal `done` event is yielded — including after a timeout broke the
loop. -/
def sendMessageStream (spawnOk : Bool) (spawnErr : String)
    (script : List ReadStep) : List OutEvent :=
  if spawnOk then
    let p := readLoop { fullResponse := "", lastBlockWasTool := false } script
    p.2 ++ [OutEvent.done p.1.fullResponse]
  else
    [OutEvent.error spawnErr]

/-- Terminal push-channel events (`done` or `error`). -/
def isTerminalEv : OutEvent → Bool
  | OutEvent.done _ => true
  | OutEvent.error _ => true
  | _ => false

/-- Concatenation of the payloads of the `text` events of a list, in
emission order. -/
def emittedText : List OutEvent → String
  | [] => ""
  | OutEvent.text s :: rest => s ++ emittedText rest
  | _ :: rest => emittedText rest

/-! ## Concrete instances used by counterexamples and witnesses -/

/-- A queued custom-command job with an innocuous command. -/
def sampleJob : Job :=
  { id := "j1", type := JobType.customCommand, status := JobStatus.queued,
    command := some "echo hi", logPath := none, startedAt := none,
    finishedAt := none, pid := none, metadataPort := none }

/-- Fresh engine state for `sampleJob`: no log file, no handle, no spawn. -/
def sampleState : EngineState :=
  { job := sampleJob, logContent := none, inProcessMap := false, spawned := false }

/-- A run in which the project exists, the spawn succeeds, and the process
exits 0 after writing `"hi\n"`. -/
def sampleWorld : RunWorld :=
  { projectExists := true, projectType := ProjectType.python,
    scriptsPath := "scripts", spawnOk := true, osPid := 4242,
    exitCode := 0, processOutput := "hi\n" }

/-- Same run with the project row missing. -/
def noProjectWorld : RunWorld :=
  { sampleWorld with projectExists := false }

/-- A queued custom-command job whose command contains a pipe. -/
def pipeState : EngineState :=
  { sampleState with job := { sampleJob with command := some "echo a | grep b" } }

/-- Engine state whose log file already holds earlier diagnostics. -/
def staleLogState : EngineState :=
  { sampleState with logContent := some "prior diagnostics" }

/-- A run whose process writes `"build output"`. -/
def buildOutWorld : RunWorld :=
  { sampleWorld with processOutput := "build output" }

/-- A RUNNING job with pid recorded and a live handle in the map. -/
def liveState : EngineState :=
  { job := { sampleJob with status := JobStatus.running, pid := some 4242 },
    logContent := some "", inProcessMap := true, spawned := true }

/-- Isolation tool probes: user management present, no sandboxing tool. -/
def isoNoSandbox : IsoEnv :=
  { useradd := true, userdel := true, setpriv := false, firejail := false,
    sudoTool := true }

/-- Isolation tool probes: setpriv and sudo but no firejail. -/
def isoSetprivOnly : IsoEnv :=
  { useradd := true, userdel := true, setpriv := true, firejail := false,
    sudoTool := true }

/-- All isolation tools available. -/
def isoAllTools : IsoEnv :=
  { useradd := true, userdel := true, setpriv := true, firejail := true,
    sudoTool := true }

/-- A second probe result agreeing with `isoAllTools` on the flags the
builder reads (setpriv, firejail, sudo) but differing elsewhere. -/
def isoAllToolsNoUserMgmt : IsoEnv :=
  { useradd := false, userdel := false, setpriv := true, firejail := true,
    sudoTool := true }

/-- Claude-service sandbox probes: no tool available, strict mode on. -/
def sandboxNoneStrict : SandboxEnv :=
  { firejail := false, bwrap := false, requireSandbox := true }

/-- Claude-service sandbox probes: firejail available, strict mode on. -/
def sandboxFirejail : SandboxEnv :=
  { firejail := true, bwrap := false, requireSandbox := true }

/-- Like `sandboxFirejail` but with strict mode off (a flag the firejail
branch never reads). -/
def sandboxFirejailLax : SandboxEnv :=
  { firejail := true, bwrap := false, requireSandbox := false }

/-- Host with no accounts and an empty reserved uid range. -/
def freshHost : HostState :=
  { passwdUids := [], accounts := [], groups := [] }

/-- Tenant row with no stored identity. -/
def freshUser : IdentityRec :=
  { unixUsername := none, unixUid := none, unixGid := none }

/-- The provisioning outcome for `freshUser` on `freshHost` with tenant id
`"ab-cd"`: username `claude_ab`, uid = gid = 10000. -/
def firstProvision : ProvisionOut :=
  { triple := ("claude_ab", 10000, 10000)
    user := { unixUsername := some "claude_ab", unixUid := some 10000,
              unixGid := some 10000 }
    host := { passwdUids := [10000], accounts := ["claude_ab"],
              groups := ["claude_ab"] } }

/-! ## Helper lemmas -/

/-- A list is a prefix of itself followed by anything. -/
theorem leadsWith_append_self (p t : List Char) : leadsWith p (p ++ t) = true := by
  induction p with
  | nil => rfl
  | cons c cs ih => simp [leadsWith, ih]

/-- A prefix occurs as a substring. -/
theorem occursIn_of_leadsWith (p s : List Char) (h : leadsWith p s = true) :
    occursIn p s = true := by
  cases s with
  | nil =>
      cases p with
      | nil => rfl
      | cons c cs => simp [leadsWith] at h
  | cons c rest => simp [occursIn, h]

/-- Occurrence in the right part of an append is occurrence in the whole. -/
theorem occursIn_append_right (a : List Char) {p b : List Char}
    (h : occursIn p b = true) : occursIn p (a ++ b) = true := by
  induction a with
  | nil => simpa using h
  | cons c cs ih => simp [occursIn, ih]

/-- Characters of an appended string. -/
theorem strData_append (a b : String) : (a ++ b).data = a.data ++ b.data := by
  cases a
  cases b
  rfl

/-- A segment at a known append boundary occurs as a substring. -/
theorem occursIn_mid (x e t q n : List Char) :
    occursIn t (((x ++ e) ++ (t ++ q)) ++ n) = true := by
  have h1 : ((x ++ e) ++ (t ++ q)) ++ n = x ++ (e ++ (t ++ (q ++ n))) := by
    simp [List.append_assoc]
  rw [h1]
  apply occursIn_append_right
  apply occursIn_append_right
  exact occursIn_of_leadsWith _ _ (leadsWith_append_self _ _)

/-- The first appended segment is a prefix of the whole. -/
theorem leadsWith_head (x b e n : List Char) :
    leadsWith x (((x ++ b) ++ e) ++ n) = true := by
  have h1 : ((x ++ b) ++ e) ++ n = x ++ (b ++ (e ++ n)) := by
    simp [List.append_assoc]
  rw [h1]
  exact leadsWith_append_self _ _

/-! ## C1: pid versus status -/

/-- C1 (counterexample): it is not the case that `pid` is non-null exactly
when the status is RUNNING.  In the very first committed state of a normal
run — the RUNNING transition of `_run_job`, committed before the process is
spawned — the status is RUNNING while `pid` is still null. -/
theorem pid_iff_running_counterexample :
    (runJob sampleWorld sampleState).all
      (fun s => (s.job.pid).isSome == (s.job.status == JobStatus.running)) = false ∧
    ((runJob sampleWorld sampleState).map
      (fun s => ((s.job.pid).isSome, s.job.status))).head? =
      some (false, JobStatus.running) := by
  decide

/-- C1 (amended): one direction holds — whenever `pid` is non-null the
status is RUNNING and the in-memory map holds a live handle — over every
state committed by `_run_job` from a job with null `pid`, and the property
is preserved by `cancel_job`.  The converse fails in the window between the
RUNNING commit and the spawn. -/
theorem pid_nonnull_implies_running (w : RunWorld) (s0 : EngineState)
    (h0 : s0.job.pid = none) :
    (∀ s ∈ runJob w s0, pidInv s) ∧
    (∀ (alive : Bool) (clock : Nat) (s : EngineState), pidInv s →
      pidInv (cancelJob alive clock s).state) := by
  constructor
  · intro s hs
    simp only [runJob] at hs
    split at hs
    · simp only [List.mem_cons, List.not_mem_nil, or_false] at hs
      subst hs
      intro hpid
      simp [failJob, h0] at hpid
    · split at hs
      · simp only [List.mem_cons, List.not_mem_nil, or_false] at hs
        rcases hs with hs | hs
        · subst hs
          intro hpid
          simp [runningJobOf, h0] at hpid
        · subst hs
          intro hpid
          simp [failJob, runningJobOf, h0] at hpid
      · split at hs
        · simp only [List.mem_cons, List.not_mem_nil, or_false] at hs
          rcases hs with hs | hs
          · subst hs
            intro hpid
            simp [runningJobOf, h0] at hpid
          · subst hs
            intro hpid
            simp [failJob, runningJobOf, h0] at hpid
        · simp only [List.mem_cons, List.not_mem_nil, or_false] at hs
          rcases hs with hs | hs | hs
          · subst hs
            intro hpid
            simp [runningJobOf, h0] at hpid
          · subst hs
            intro _
            exact ⟨rfl, rfl⟩
          · subst hs
            intro hpid
            simp at hpid
  · intro alive clock s hinv
    unfold cancelJob
    split
    · exact hinv
    · split
      · intro hpid
        simp only [EngineState.job] at hpid
        rcases hinv (by simpa using hpid) with ⟨-, hmap⟩
        simp_all
      · exact hinv

/-- C1 (witness): the invariant holds of the final state of a concrete run. -/
theorem pid_nonnull_implies_running_witness :
    pidInv (runJobFinal sampleWorld sampleState) :=
  (pid_nonnull_implies_running sampleWorld sampleState rfl).1
    (runJobFinal sampleWorld sampleState) (by decide)

/-! ## C2: reachable status transitions -/

/-- C2 (counterexample): a run whose project row is missing moves the job
straight from QUEUED to FAILED, an edge the specification's transition
relation does not allow. -/
theorem status_edges_counterexample :
    (runJob noProjectWorld sampleState).map (fun s => s.job.status) =
      [JobStatus.failed] ∧
    edgesOk (fun a b => a == b || claimEdge a b)
      (JobStatus.queued :: (runJob noProjectWorld sampleState).map
        (fun s => s.job.status)) = false := by
  decide

/-- C2 (amended): every consecutive pair of observable statuses of a run
starting from QUEUED, and every `cancel_job` step, either keeps the status
or takes one of the edges QUEUED→RUNNING, QUEUED→FAILED, QUEUED→CANCELLED,
RUNNING→{SUCCESS, FAILED, CANCELLED}; in particular no transition ever
leaves a terminal state. -/
theorem status_edges_amended (w : RunWorld) (s0 : EngineState)
    (h : s0.job.status = JobStatus.queued) :
    List.Chain' stepOk
      (s0.job.status :: (runJob w s0).map (fun s => s.job.status)) ∧
    (∀ (alive : Bool) (clock : Nat) (s : EngineState),
      stepOk s.job.status (cancelJob alive clock s).state.job.status) := by
  constructor
  · rw [h]
    simp only [runJob]
    split
    · simp [failJob, List.chain'_cons, stepOk, codeEdge]
    · split
      · simp [failJob, runningJobOf, List.chain'_cons, stepOk, codeEdge]
      · split
        · simp [failJob, runningJobOf, List.chain'_cons, stepOk, codeEdge]
        · by_cases he : w.exitCode = 0 <;>
            simp [runningJobOf, he, List.chain'_cons, stepOk, codeEdge]
  · intro alive clock s
    unfold cancelJob
    split
    · exact Or.inl rfl
    · split
      · rename_i hc
        rcases hc with hq | hr
        · exact Or.inr (by simp [hq, codeEdge])
        · exact Or.inr (by simp [hr, codeEdge])
      · exact Or.inl rfl

/-- C2 (witness): the status chain of a concrete missing-project run. -/
theorem status_edges_amended_witness :
    List.Chain' stepOk
      (sampleState.job.status :: (runJob noProjectWorld sampleState).map
        (fun s => s.job.status)) :=
  (status_edges_amended noProjectWorld sampleState rfl).1

/-! ## C4: custom-command denylist -/

/-- C4: a custom-command job whose command contains `;`, `|`, a backtick, or
`rm -rf` is rejected by `_sanitize_command` before any process is spawned:
no state of the run has a spawned subprocess, the job ends FAILED, and the
rejection reason (naming the matched dangerous pattern) is appended to the
job's log without discarding what the log held before. -/
theorem custom_command_rejected (w : RunWorld) (s0 : EngineState) (c : String)
    (hty : s0.job.type = JobType.customCommand)
    (hcmd : s0.job.command = some c)
    (hpat : strContains c ";" = true ∨ strContains c "|" = true ∨
            strContains c "`" = true ∨ strContains c "rm -rf" = true)
    (hproj : w.projectExists = true)
    (hsp : s0.spawned = false) :
    (runJob w s0).all (fun s => !s.spawned) = true ∧
    (runJobFinal w s0).job.status = JobStatus.failed ∧
    strContains ((runJobFinal w s0).logContent.getD "")
      "Dangerous pattern in command: " = true ∧
    leadsWith (s0.logContent.getD "").data
      ((runJobFinal w s0).logContent.getD "").data = true := by
  have hc : ¬ c = "" := by
    rintro rfl
    rcases hpat with hx | hx | hx | hx <;>
      simp [strContains, occursIn, List.isEmpty] at hx
  have hsome : (dangerousPatterns.find? (fun pat => strContains c pat)).isSome := by
    rw [List.find?_isSome]
    rcases hpat with hx | hx | hx | hx
    · exact ⟨";", by simp [dangerousPatterns], hx⟩
    · exact ⟨"|", by simp [dangerousPatterns], hx⟩
    · exact ⟨"`", by simp [dangerousPatterns], hx⟩
    · exact ⟨"rm -rf", by simp [dangerousPatterns], hx⟩
  obtain ⟨q, hq⟩ := Option.isSome_iff_exists.mp hsome
  have hsan : sanitizeCommand c =
      Except.error ("Dangerous pattern in command: " ++ q) := by
    simp [sanitizeCommand, hq]
  have hbc : buildCommand w.scriptsPath (runningJobOf s0) w.projectType =
      Except.error ("Dangerous pattern in command: " ++ q) := by
    simp [buildCommand, runningJobOf, hty, hcmd, hc, hsan]
  have hrun : runJob w s0 =
      [{ s0 with job := runningJobOf s0 },
       failJob 2 ("Dangerous pattern in command: " ++ q)
         { s0 with job := runningJobOf s0 }] := by
    simp [runJob, hproj, hbc]
  have hfin : runJobFinal w s0 =
      failJob 2 ("Dangerous pattern in command: " ++ q)
        { s0 with job := runningJobOf s0 } := by
    rw [runJobFinal, hrun]
    rfl
  refine ⟨?_, ?_, ?_, ?_⟩
  · simp [hrun, failJob, hsp]
  · simp [hfin, failJob]
  · rw [hfin]
    simp only [failJob, runningJobOf, Option.getD_some]
    simp only [strContains, strData_append]
    exact occursIn_mid _ _ _ _ _
  · rw [hfin]
    simp only [failJob, runningJobOf, Option.getD_some]
    simp only [strData_append]
    exact leadsWith_head _ _ _ _

/-- C4 (witness): a concrete piped command is rejected with no spawn. -/
theorem custom_command_rejected_witness :
    (runJob sampleWorld pipeState).all (fun s => !s.spawned) = true ∧
    (runJobFinal sampleWorld pipeState).job.status = JobStatus.failed ∧
    strContains ((runJobFinal sampleWorld pipeState).logContent.getD "")
      "Dangerous pattern in command: " = true ∧
    leadsWith (pipeState.logContent.getD "").data
      ((runJobFinal sampleWorld pipeState).logContent.getD "").data = true :=
  custom_command_rejected sampleWorld pipeState "echo a | grep b" rfl rfl
    (Or.inr (Or.inl (by decide))) rfl rfl

/-! ## C9: log file handling at spawn -/

/-- C9 (counterexample): `_run_job` opens the log with mode "w", so a run
over a log file already holding `"prior diagnostics"` ends with the log
containing only the process output — the pre-existing content is truncated,
not appended to. -/
theorem log_append_counterexample :
    (runJobFinal buildOutWorld staleLogState).logContent = some "build output" ∧
    strContains ((runJobFinal buildOutWorld staleLogState).logContent.getD "")
      "prior diagnostics" = false := by
  decide

/-- C9 (amended): the process's stdout and stderr both go to the job's log
file with a single writer, but the file is opened in write mode: after any
run that reaches the process-start step, the log content is exactly the
process output, whatever the file held before. -/
theorem log_truncated_on_spawn (w : RunWorld) (s0 : EngineState)
    (ce : String × List (String × String))
    (hproj : w.projectExists = true)
    (hspawn : w.spawnOk = true)
    (hbc : buildCommand w.scriptsPath (runningJobOf s0) w.projectType =
      Except.ok ce) :
    (runJobFinal w s0).logContent = some w.processOutput := by
  simp [runJobFinal, runJob, hproj, hbc, hspawn, String.empty_append]

/-- C9 (witness): a concrete run over a stale log ends with just the
process output. -/
theorem log_truncated_on_spawn_witness :
    (runJobFinal buildOutWorld staleLogState).logContent =
      some buildOutWorld.processOutput :=
  log_truncated_on_spawn buildOutWorld staleLogState ("echo hi", []) rfl rfl rfl

/-! ## C10: cancel with a live handle -/

/-- C10: cancelling a job whose id has a live handle in the in-memory map
signals the process (terminate, then kill if still alive after the grace
period) and returns `True`, while writing no field of the `Job` record and
changing nothing else observable. -/
theorem cancel_live_handle_frame (alive : Bool) (clock : Nat)
    (s : EngineState) (h : s.inProcessMap = true) :
    (cancelJob alive clock s).ok = true ∧
    (cancelJob alive clock s).state = s ∧
    (cancelJob alive clock s).signals =
      (if alive then [Sig.term, Sig.kill] else [Sig.term]) := by
  simp [cancelJob, h]

/-- C10 (witness): a concrete cancel of a live job. -/
theorem cancel_live_handle_frame_witness :
    (cancelJob true 7 liveState).ok = true ∧
    (cancelJob true 7 liveState).state = liveState ∧
    (cancelJob true 7 liveState).signals =
      (if true then [Sig.term, Sig.kill] else [Sig.term]) :=
  cancel_live_handle_frame true 7 liveState rfl

/-! ## C3: fail-closed policy -/

/-- C3 (counterexample): `IsolationService.build_isolated_command` never
raises a configuration error: without firejail it falls back to the
non-confining `sudo setpriv` privilege drop, and with no tool at all it
returns the command unwrapped — it does not consult `require_sandbox`. -/
theorem fail_closed_counterexample :
    buildIsolatedCommand isoNoSandbox ["echo", "hi"] 10000 10000 [] [] =
      ["echo", "hi"] ∧
    buildIsolatedCommand isoSetprivOnly ["echo", "hi"] 10000 10000 [] [] =
      ["sudo", "setpriv", "--reuid=10000", "--regid=10000", "--init-groups",
       "--", "echo", "hi"] := by
  decide

/-- C3 (amended): only `ClaudeService._build_sandboxed_command` is
fail-closed — with `require_sandbox` set and neither firejail nor bubblewrap
available it raises the configuration error and never returns a command —
while `IsolationService.build_isolated_command` falls back to a privilege
drop or to the unwrapped command. -/
theorem claude_builder_fail_closed (env : SandboxEnv) (cmd : List String)
    (ap rp : List String)
    (hf : env.firejail = false) (hb : env.bwrap = false)
    (hr : env.requireSandbox = true) :
    buildSandboxedCommand env cmd ap rp = Except.error sandboxRequiredMsg := by
  simp [buildSandboxedCommand, hf, hb, hr]

/-- C3 (witness): the strict no-tool configuration raises. -/
theorem claude_builder_fail_closed_witness :
    buildSandboxedCommand sandboxNoneStrict ["claude", "--print"] [] [] =
      Except.error sandboxRequiredMsg :=
  claude_builder_fail_closed sandboxNoneStrict ["claude", "--print"] [] []
    rfl rfl rfl

/-! ## C8: builder determinism -/

/-- C8: both sandbox builders are pure functions of their arguments and the
availability flags they read: two probes agreeing on those flags give
element-for-element identical wrapped commands, whatever the other flags
are; for the claude-service builder, any two invocations that return (rather
than raise) under equal firejail/bwrap availability return the same list. -/
theorem builder_deterministic (e1 e2 : IsoEnv) (s1 s2 : SandboxEnv)
    (cmd : List String) (uid gid : Nat) (ap rp : List String)
    (hfj : e1.firejail = e2.firejail) (hsp : e1.setpriv = e2.setpriv)
    (hsu : e1.sudoTool = e2.sudoTool)
    (hf : s1.firejail = s2.firejail) (hb : s1.bwrap = s2.bwrap) :
    buildIsolatedCommand e1 cmd uid gid ap rp =
      buildIsolatedCommand e2 cmd uid gid ap rp ∧
    (∀ l1 l2, buildSandboxedCommand s1 cmd ap rp = Except.ok l1 →
      buildSandboxedCommand s2 cmd ap rp = Except.ok l2 → l1 = l2) := by
  obtain ⟨u1, d1, sp1, fj1, su1⟩ := e1
  obtain ⟨u2, d2, sp2, fj2, su2⟩ := e2
  obtain ⟨f1, b1, r1⟩ := s1
  obtain ⟨f2, b2, r2⟩ := s2
  simp only at hfj hsp hsu hf hb
  subst hfj
  subst hsp
  subst hsu
  subst hf
  subst hb
  constructor
  · rfl
  · intro l1 l2 h1 h2
    cases f1 <;> cases b1 <;> cases r1 <;> cases r2 <;>
      simp_all [buildSandboxedCommand]

/-- C8 (witness): two probes differing only in user-management flags give
the same wrapped command. -/
theorem builder_deterministic_witness :
    buildIsolatedCommand isoAllTools ["bash", "build.sh"] 10000 10000
      ["/ws"] [] =
    buildIsolatedCommand isoAllToolsNoUserMgmt ["bash", "build.sh"] 10000
      10000 ["/ws"] [] :=
  (builder_deterministic isoAllTools isoAllToolsNoUserMgmt sandboxFirejail
    sandboxFirejailLax ["bash", "build.sh"] 10000 10000 ["/ws"] []
    rfl rfl rfl rfl rfl).1

/-! ## C7: provisioning idempotence -/

/-- A uid returned by the allocation scan is at least the scan start. -/
theorem findAvailableUidAux_ge (used : List Nat) (fuel start u : Nat)
    (h : findAvailableUidAux used start fuel = some u) : start ≤ u := by
  induction fuel generalizing start with
  | zero => simp [findAvailableUidAux] at h
  | succ n ih =>
      unfold findAvailableUidAux at h
      split at h
      · have := ih (start + 1) h
        omega
      · simp only [Option.some.injEq] at h
        omega

/-- A uid returned by `_find_available_uid` lies in the reserved range. -/
theorem findAvailableUid_ge (used : List Nat) (u : Nat)
    (h : findAvailableUid used = some u) : 10000 ≤ u :=
  findAvailableUidAux_ge used 50000 10000 u h

/-- After a successful fresh provisioning, calling `provision_user` again on
the updated user row and host returns the same outcome unchanged. -/
theorem provision_fresh_ok (tools : IsoEnv) (pid : String) (host : HostState)
    (out : ProvisionOut)
    (htool : ¬ ((!(tools.useradd && tools.sudoTool)) = true))
    (h : freshProvision pid host = Except.ok out) :
    provisionUser tools pid out.user out.host = Except.ok out := by
  unfold freshProvision at h
  split at h
  · simp at h
  · rename_i uid hfind
    cases h
    dsimp only
    have hne : (usernameFor pid == "") = false := by
      rw [beq_eq_false_iff_ne]
      intro hx
      have hd := congrArg String.data hx
      rw [usernameFor, strData_append] at hd
      simp at hd
    have hnz : (uid == 0) = false := by
      rw [beq_eq_false_iff_ne]
      have := findAvailableUid_ge host.passwdUids uid hfind
      omega
    have hs : storedIdentity
        { unixUsername := some (usernameFor pid), unixUid := some uid,
          unixGid := some uid } = some (usernameFor pid, uid) := by
      simp [storedIdentity, hne, hnz]
    unfold provisionUser
    rw [if_neg htool]
    split
    · rename_i un2 ui2 heq2
      rw [hs] at heq2
      cases heq2
      simp [gidOrUid]
    · rename_i heq2
      rw [hs] at heq2
      cases heq2

/-- C7: `provision_user` is idempotent — a second call with the user row and
host state left by a successful first call returns the identical
(username, uid, gid) triple and outcome, creating no additional OS account
or group and leaving the stored identity unchanged. -/
theorem provision_idempotent (tools : IsoEnv) (pid : String)
    (user : IdentityRec) (host : HostState) (out : ProvisionOut)
    (h : provisionUser tools pid user host = Except.ok out) :
    provisionUser tools pid out.user out.host = Except.ok out := by
  unfold provisionUser at h
  split at h
  · simp at h
  · rename_i htool
    split at h
    · rename_i uname uid heq
      cases h
      unfold provisionUser
      rw [if_neg htool]
      split
      · rename_i un2 ui2 heq2
        rw [heq] at heq2
        cases heq2
        rfl
      · rename_i heq2
        rw [heq] at heq2
        cases heq2
    · exact provision_fresh_ok tools pid host out htool h

/-- C7 (witness): a concrete second call after a first fresh provisioning. -/
theorem provision_idempotent_witness :
    provisionUser isoAllTools "ab-cd" firstProvision.user firstProvision.host =
      Except.ok firstProvision :=
  provision_idempotent isoAllTools "ab-cd" freshUser freshHost firstProvision
    rfl

/-! ## C5: streaming text reconstruction -/

/-- Folding text deltas appends their concatenation to the response and
emits exactly the non-empty fragments as text events, in order. -/
theorem processEvents_textDeltas (ts : List String) (r : String) (b : Bool) :
    (processEvents { fullResponse := r, lastBlockWasTool := b }
      (ts.map StreamEvent.textDelta)).1 =
      { fullResponse := r ++ concatStr ts, lastBlockWasTool := b } ∧
    emittedText (processEvents { fullResponse := r, lastBlockWasTool := b }
      (ts.map StreamEvent.textDelta)).2 = concatStr ts := by
  induction ts generalizing r with
  | nil =>
      refine ⟨?_, rfl⟩
      simp [processEvents, concatStr, String.append_empty]
  | cons t rest ih =>
      simp only [List.map, processEvents, processEvent]
      by_cases ht : t = ""
      · subst ht
        rw [if_pos rfl]
        refine ⟨?_, ?_⟩
        · rw [(ih r).1]
          simp [concatStr, String.empty_append]
        · simp only [List.nil_append]
          rw [concatStr, String.empty_append]
          exact (ih r).2
      · rw [if_neg ht]
        refine ⟨?_, ?_⟩
        · rw [(ih (r ++ t)).1]
          simp [concatStr, String.append_assoc]
        · simp only [List.singleton_append]
          rw [emittedText, (ih (r ++ t)).2]
          rfl

/-- C5: over any sequence of `content_block_delta` text-delta events, the
emitted text events concatenate, in emission order, to exactly the
concatenation of the deltas' `text` fields in input order, and the
accumulated response equals the same concatenation. -/
theorem stream_text_delta_concat (ts : List String) (b : Bool) :
    emittedText (processEvents { fullResponse := "", lastBlockWasTool := b }
      (ts.map StreamEvent.textDelta)).2 = concatStr ts ∧
    (processEvents { fullResponse := "", lastBlockWasTool := b }
      (ts.map StreamEvent.textDelta)).1.fullResponse = concatStr ts := by
  refine ⟨(processEvents_textDeltas ts "" b).2, ?_⟩
  rw [(processEvents_textDeltas ts "" b).1]
  exact String.empty_append _

/-! ## C6: terminal event discipline -/

/-- `processEvent` never emits a terminal (`done` or `error`) event. -/
theorem processEvent_no_terminal (st : DecState) (e : StreamEvent) :
    ((processEvent st e).2.all (fun o => !(isTerminalEv o))) = true := by
  cases e with
  | blockStart bt tn =>
      simp only [processEvent]
      split
      · rfl
      · split
        · split
          · rfl
          · rfl
        · rfl
  | textDelta t =>
      simp only [processEvent]
      split
      · rfl
      · rfl
  | inputJsonDelta pj =>
      simp only [processEvent]
      split
      · rfl
      · rfl
  | blockStop => rfl
  | assistantMsg content =>
      simp only [processEvent, List.all_eq_true, List.mem_filterMap]
      rintro o ⟨blk, -, hblk⟩
      cases blk with
      | toolUse n i =>
          cases hblk
          rfl
      | other => simp at hblk
  | resultEvent r =>
      simp only [processEvent]
      split
      · split
        · rfl
        · rfl
      · rfl
  | unknown => rfl

/-- `processEvents` never emits a terminal event. -/
theorem processEvents_no_terminal (st : DecState) (es : List StreamEvent) :
    ((processEvents st es).2.all (fun o => !(isTerminalEv o))) = true := by
  induction es generalizing st with
  | nil => rfl
  | cons e rest ih =>
      simp only [processEvents, List.all_append, Bool.and_eq_true]
      exact ⟨processEvent_no_terminal st e, ih _⟩

/-- Decomposition of the read loop over a prefix of chunk reads. -/
theorem readLoop_chunks (css : List (List StreamEvent)) (st : DecState)
    (tail : List ReadStep) :
    readLoop st (css.map ReadStep.chunk ++ tail) =
      ((readLoop (readLoop st (css.map ReadStep.chunk)).1 tail).1,
       (readLoop st (css.map ReadStep.chunk)).2 ++
         (readLoop (readLoop st (css.map ReadStep.chunk)).1 tail).2) := by
  induction css generalizing st with
  | nil => simp [readLoop]
  | cons cs rest ih =>
      simp only [List.map, List.cons_append, readLoop, List.append_eq]
      rw [ih]
      simp [List.append_assoc]

/-- The read loop over chunk reads alone emits no terminal event. -/
theorem readLoop_chunks_no_terminal (css : List (List StreamEvent))
    (st : DecState) :
    ((readLoop st (css.map ReadStep.chunk)).2.all
      (fun o => !(isTerminalEv o))) = true := by
  induction css generalizing st with
  | nil => rfl
  | cons cs rest ih =>
      simp only [List.map, readLoop, List.all_append, Bool.and_eq_true]
      exact ⟨processEvents_no_terminal _ _, ih _⟩

/-- C6 (counterexample): a streaming invocation that times out does not end
with a single terminal error event: the loop breaks with the timeout error
event and the generator still appends the terminal `done` event after it. -/
theorem stream_timeout_counterexample :
    sendMessageStream true "spawn failure" [ReadStep.timeout] =
      [OutEvent.error "Response timed out", OutEvent.done ""] ∧
    ((sendMessageStream true "spawn failure" [ReadStep.timeout]).filter
      isTerminalEv).length = 2 := by
  decide

/-- C6 (amended): a spawn or sandbox-configuration failure yields exactly
one terminal error event; a clean end of stream yields non-terminal events
followed by exactly one `done`; but a read timeout yields the error event
followed by a final `done` — two terminal events. -/
theorem stream_terminal_events (err : String) (css : List (List StreamEvent))
    (rest : List ReadStep) (script0 : List ReadStep) :
    sendMessageStream false err script0 = [OutEvent.error err] ∧
    ((readLoop { fullResponse := "", lastBlockWasTool := false }
        (css.map ReadStep.chunk)).2.all (fun o => !(isTerminalEv o))) = true ∧
    sendMessageStream true err (css.map ReadStep.chunk ++ [ReadStep.eof]) =
      (readLoop { fullResponse := "", lastBlockWasTool := false }
        (css.map ReadStep.chunk)).2 ++
      [OutEvent.done (readLoop { fullResponse := "", lastBlockWasTool := false }
        (css.map ReadStep.chunk)).1.fullResponse] ∧
    sendMessageStream true err (css.map ReadStep.chunk ++ ReadStep.timeout :: rest) =
      (readLoop { fullResponse := "", lastBlockWasTool := false }
        (css.map ReadStep.chunk)).2 ++
      [OutEvent.error "Response timed out",
       OutEvent.done (readLoop { fullResponse := "", lastBlockWasTool := false }
        (css.map ReadStep.chunk)).1.fullResponse] := by
  refine ⟨rfl, readLoop_chunks_no_terminal css _, ?_, ?_⟩
  · simp only [sendMessageStream, if_true]
    rw [readLoop_chunks]
    simp [readLoop]
  · simp only [sendMessageStream, if_true]
    rw [readLoop_chunks]
    simp [readLoop, List.append_assoc]

end ClaudeServer
